import Mathlib

/-!
Verification of the session-isolation and response-routing core of the
Gmail MCP server, together with its evaluation-suite module.

The file embeds, in order:
  * `src/evals/evals.ts` — the five evaluation functions, the default-exported
    configuration and the named `evals` export;
  * the `AppContext` / `AsyncLocalStorage` context-carrier discipline
    (`src/evals/evals.ts` lines 204-220) as a dynamically scoped context,
    both denotationally (structured programs) and as a small-step machine
    whose tasks are interleaved by an arbitrary scheduler;
  * `SessionAwareStreamableTransport.send` (`src/evals/evals.ts` lines
    264-272) over a reader-style embedding of the storage;
  * the Session Registry, Lifecycle Sweeper and Request Dispatcher, modelled
    from the specification where the repository ships only their description.
-/

namespace GmailMCP

/-! ## The evaluation module, from src/evals/evals.ts -/

/-- An `EvalFunction` value of `src/evals/evals.ts`: its `name`, its
`description`, and the data determining its `run` body — the model handed to
`grade` and the prompt string. -/
structure EvalFunction where
  name : String
  description : String
  model : String
  prompt : String
deriving DecidableEq

/-- `send_emailEval` (src/evals/evals.ts lines 7-17). -/
def send_emailEval : EvalFunction :=
  { name := "send_emailEval"
    description := "Evaluates sending a new email"
    model := "gpt-4o"
    prompt := "Please send an email to example@domain.com with the subject 'Meeting Reminder' and a short message confirming our meeting tomorrow, politely requesting confirmation of attendance." }

/-- `draft_email` (src/evals/evals.ts lines 19-29). -/
def draft_email : EvalFunction :=
  { name := "draft_email"
    description := "Evaluates the tool’s ability to draft an email"
    model := "gpt-4o"
    prompt := "Draft a new email to my manager requesting a meeting to discuss project updates and timelines." }

/-- `read_emailEval` (src/evals/evals.ts lines 31-41). -/
def read_emailEval : EvalFunction :=
  { name := "read_email Tool Evaluation"
    description := "Evaluates retrieving the content of a specific email"
    model := "gpt-4o"
    prompt := "Please retrieve the content of the email with the subject 'Upcoming Meeting' from my inbox." }

/-- `search_emailsEval` (src/evals/evals.ts lines 43-54). -/
def search_emailsEval : EvalFunction :=
  { name := "search_emails Tool Evaluation"
    description := "Evaluates the tool's ability to search emails using Gmail syntax"
    model := "gpt-4o"
    prompt := "Search my mailbox for unread emails from boss@company.com that have attachments. Provide the Gmail search syntax." }

/-- `modify_emailEval` (src/evals/evals.ts lines 56-66). -/
def modify_emailEval : EvalFunction :=
  { name := "modify_email Tool Evaluation"
    description := "Evaluates the modify_email tool functionality"
    model := "gpt-4o"
    prompt := "Please move the email labeled 'Work' to the 'Important' folder and remove the 'unread' label." }

/-- The `EvalConfig` shape of src/evals/evals.ts: the grading model and the
list of evaluation functions. -/
structure EvalConfig where
  model : String
  evals : List EvalFunction
deriving DecidableEq

/-- `config`, the default export (src/evals/evals.ts lines 68-79). -/
def config : EvalConfig :=
  { model := "gpt-4o"
    evals := [send_emailEval, draft_email, read_emailEval, search_emailsEval,
              modify_emailEval] }

/-- `evals`, the named export (src/evals/evals.ts lines 81-87). -/
def evals : List EvalFunction :=
  [send_emailEval, draft_email, read_emailEval, search_emailsEval,
   modify_emailEval]

/-- C10: the default export's `evals` field and the named export `evals` are
equal, and both list the same five evaluation functions in the same order. -/
theorem C10_default_and_named_evals_agree :
    config.evals = evals ∧
    evals = [send_emailEval, draft_email, read_emailEval, search_emailsEval,
             modify_emailEval] :=
  ⟨rfl, rfl⟩

/-! ## The Context Carrier

`AppContext` is the per-request context interface of src/evals/evals.ts
(lines 204-211). The carrier itself is Node's `AsyncLocalStorage`
(src/evals/evals.ts line 213), whose store is not part of the repository;
its dynamic-scoping discipline is modelled from the spec (§4.1). -/

/-- The `AppContext` interface (src/evals/evals.ts lines 204-211): the
Gmail and OAuth client handles are opaque, modelled by their identities. -/
structure AppContext where
  gmail : Option Nat
  oauth2Client : Option Nat
  sessionId : Option String
  userId : Option String
  mcpSessionId : Option String
  authSessionId : Option String
deriving DecidableEq

/-- Modelled from the spec: the operations one logical task performs against
the Context Carrier (§4.1). `getCtx` is a `currentContext()` call, `runWith`
opens a `runWithContext` scope around `body` and continues with `k`,
`suspend` is a suspension point (timer, pending external call, queued
continuation) after which the task resumes. -/
inductive CProg where
  | done : CProg
  | getCtx (k : CProg) : CProg
  | runWith (c : AppContext) (body : CProg) (k : CProg) : CProg
  | suspend (k : CProg) : CProg

/-- Modelled from the spec: denotational semantics of the Context Carrier
for one task — the sequence of context values the task's `currentContext()`
calls observe, starting from ambient context `ρ`. A `runWith c body k` scope
evaluates `body` under `some c` and restores `ρ` exactly for `k`; evaluation
is total, so observing outside any scope is a defined empty state, not an
error. -/
def observations : Option AppContext → CProg → List (Option AppContext)
  | _, .done => []
  | ρ, .getCtx k => ρ :: observations ρ k
  | ρ, .runWith c body k => observations (some c) body ++ observations ρ k
  | ρ, .suspend k => observations ρ k

/-- Whether a program opens no nested `runWithContext` scope of its own. -/
def noRun : CProg → Bool
  | .done => true
  | .getCtx k => noRun k
  | .runWith _ _ _ => false
  | .suspend k => noRun k

/-- Every observation of a program that opens no scope of its own is the
ambient context it runs under. -/
theorem observations_of_noRun (p : CProg) :
    ∀ ρ, noRun p = true → ∀ o ∈ observations ρ p, o = ρ := by
  induction p with
  | done => intro ρ _ o ho; simp [observations] at ho
  | getCtx k ih =>
      intro ρ h o ho
      simp only [observations, List.mem_cons] at ho
      rcases ho with rfl | ho
      · rfl
      · exact ih ρ (by simpa [noRun] using h) o ho
  | runWith c body k ihb ihk => intro ρ h; simp [noRun] at h
  | suspend k ih =>
      intro ρ h o ho
      exact ih ρ (by simpa [noRun] using h) o (by simpa [observations] using ho)

/-- C6: `runWithContext(ctx, fn)` executes `fn` so that every nested
`currentContext()` — direct or after a suspension point — observes `ctx`
(first conjunct, for a body opening no scope of its own); a nested
`runWithContext` scope's inner context wins for its dynamic extent and the
outer context is restored exactly when it returns (second conjunct); outside
any scope `currentContext()` returns the defined empty "no context" value
`none` rather than raising an error (third conjunct — the semantics is a
total function). -/
theorem C6_runWithContext_dynamic_scoping
    (ρ : Option AppContext) (c c' : AppContext) (body inner k k' tail : CProg)
    (hbody : noRun body = true) :
    (∀ o ∈ observations (some c) body, o = some c) ∧
    observations ρ (CProg.runWith c (CProg.runWith c' inner k') k) =
      observations (some c') inner ++ observations (some c) k' ++
        observations ρ k ∧
    observations none (CProg.getCtx tail) = none :: observations none tail := by
  refine ⟨observations_of_noRun body (some c) hbody, ?_, rfl⟩
  simp [observations, List.append_assoc]

/-- A concrete context for session S1: the context built for a dispatch of
the session whose MCP session id is "S1". -/
def ctxS1 : AppContext :=
  { gmail := some 1, oauth2Client := some 1, sessionId := some "sess-1"
    userId := none, mcpSessionId := some "S1", authSessionId := some "auth-1" }

/-- A concrete context for session S2. -/
def ctxS2 : AppContext :=
  { gmail := some 2, oauth2Client := some 2, sessionId := some "sess-2"
    userId := none, mcpSessionId := some "S2", authSessionId := some "auth-2" }

/-- A concrete scope body: observe, suspend, observe again. -/
def bodyS1 : CProg := .getCtx (.suspend (.getCtx .done))

/-- C6 witness: the scoping theorem applied to session S1's context, a body
that observes the context before and after a suspension point, and a nested
scope carrying session S2's context. -/
theorem C6_witness :
    noRun bodyS1 = true ∧
    ((∀ o ∈ observations (some ctxS1) bodyS1, o = some ctxS1) ∧
      observations none
          (CProg.runWith ctxS1 (CProg.runWith ctxS2 bodyS1 bodyS1) bodyS1) =
        observations (some ctxS2) bodyS1 ++ observations (some ctxS1) bodyS1 ++
          observations none bodyS1 ∧
      observations none (CProg.getCtx CProg.done) =
        none :: observations none CProg.done) :=
  ⟨by decide,
   C6_runWithContext_dynamic_scoping none ctxS1 ctxS2 bodyS1 bodyS1 bodyS1
     bodyS1 CProg.done (by decide)⟩

/-! ## Concurrent tasks: a small-step machine over the Context Carrier

Modelled from the spec (§4.1, §5): each logical task owns a task-local stack
of `runWithContext` scopes; a scheduler interleaves the steps of concurrently
handled messages arbitrarily. This is the shallow embedding of
`AsyncLocalStorage`'s per-asynchronous-flow store (src/evals/evals.ts
line 213). -/

/-- One step of a task against the Context Carrier: observe the current
context, enter a `runWithContext` scope, leave it, or pass a suspension
point. -/
inductive Instr where
  | obs : Instr
  | enter (c : AppContext) : Instr
  | exitScope : Instr
  | yield : Instr
deriving DecidableEq

/-- Running one task alone: its scope stack starts at `st`; the result is
the sequence of contexts its `currentContext()` calls observe (`none` when
the stack is empty — outside any scope). -/
def runTask : List AppContext → List Instr → List (Option AppContext)
  | _, [] => []
  | st, .obs :: is => st.head? :: runTask st is
  | st, .enter c :: is => runTask (c :: st) is
  | st, .exitScope :: is => runTask st.tail is
  | st, .yield :: is => runTask st is

/-- One small step of a task: the new scope stack and the observations the
step emits. -/
def stepTask (st : List AppContext) : Instr → List AppContext × List (Option AppContext)
  | .obs => (st, [st.head?])
  | .enter c => (c :: st, [])
  | .exitScope => (st.tail, [])
  | .yield => (st, [])

/-- Two concurrently handled tasks under an arbitrary scheduler: at each
scheduling choice (`true` steps the first task, `false` the second) the
chosen task advances one step against its own task-local scope stack; when
the schedule runs out each task runs to completion. Returns the two tasks'
observation sequences. -/
def interleave : List Bool → List AppContext → List Instr →
    List AppContext → List Instr →
    List (Option AppContext) × List (Option AppContext)
  | [], st1, is1, st2, is2 => (runTask st1 is1, runTask st2 is2)
  | true :: sch, st1, [], st2, is2 => interleave sch st1 [] st2 is2
  | true :: sch, st1, i :: is1, st2, is2 =>
      ((stepTask st1 i).2 ++
        (interleave sch (stepTask st1 i).1 is1 st2 is2).1,
       (interleave sch (stepTask st1 i).1 is1 st2 is2).2)
  | false :: sch, st1, is1, st2, [] => interleave sch st1 is1 st2 []
  | false :: sch, st1, is1, st2, i :: is2 =>
      ((interleave sch st1 is1 (stepTask st2 i).1 is2).1,
       (stepTask st2 i).2 ++
        (interleave sch st1 is1 (stepTask st2 i).1 is2).2)

/-- Scheduling does not change what either task observes: under every
schedule, each task's observation sequence is exactly what it observes
running alone on its own scope stack. -/
theorem interleave_eq_runTask :
    ∀ (sch : List Bool) (st1 : List AppContext) (is1 : List Instr)
      (st2 : List AppContext) (is2 : List Instr),
      interleave sch st1 is1 st2 is2 = (runTask st1 is1, runTask st2 is2) := by
  intro sch
  induction sch with
  | nil => intro st1 is1 st2 is2; rfl
  | cons b sch ih =>
      intro st1 is1 st2 is2
      cases b with
      | true =>
          cases is1 with
          | nil => simpa [interleave] using ih st1 [] st2 is2
          | cons i is1 =>
              cases i <;> simp [interleave, stepTask, runTask, ih]
      | false =>
          cases is2 with
          | nil => simpa [interleave] using ih st1 is1 st2 []
          | cons i is2 =>
              cases i <;> simp [interleave, stepTask, runTask, ih]

/-- The contexts a task's instruction list can enter. -/
def entersOf : List Instr → List AppContext
  | [] => []
  | .enter c :: is => c :: entersOf is
  | _ :: is => entersOf is

/-- Every context a task observes is `none` or a context from its own scope
stack or its own `enter` instructions. -/
theorem runTask_mem :
    ∀ (is : List Instr) (st : List AppContext) (o : Option AppContext),
      o ∈ runTask st is →
      o = none ∨ ∃ c, o = some c ∧ (c ∈ st ∨ c ∈ entersOf is) := by
  intro is
  induction is with
  | nil => intro st o ho; simp [runTask] at ho
  | cons i is ih =>
      intro st o ho
      cases i with
      | obs =>
          simp only [runTask, List.mem_cons] at ho
          rcases ho with rfl | ho
          · cases st with
            | nil => exact Or.inl rfl
            | cons c st => exact Or.inr ⟨c, rfl, Or.inl (List.mem_cons_self c st)⟩
          · rcases ih st o ho with h | ⟨c, rfl, hc | hc⟩
            · exact Or.inl h
            · exact Or.inr ⟨c, rfl, Or.inl hc⟩
            · exact Or.inr ⟨c, rfl, Or.inr (by simpa [entersOf] using hc)⟩
      | enter c' =>
          rcases ih (c' :: st) o (by simpa [runTask] using ho) with h | ⟨c, rfl, hc | hc⟩
          · exact Or.inl h
          · rcases List.mem_cons.mp hc with rfl | hc
            · exact Or.inr ⟨c, rfl, Or.inr (by simp [entersOf])⟩
            · exact Or.inr ⟨c, rfl, Or.inl hc⟩
          · exact Or.inr ⟨c, rfl, Or.inr (by simp [entersOf, hc])⟩
      | exitScope =>
          rcases ih st.tail o (by simpa [runTask] using ho) with h | ⟨c, rfl, hc | hc⟩
          · exact Or.inl h
          · exact Or.inr ⟨c, rfl, Or.inl (List.tail_subset st hc)⟩
          · exact Or.inr ⟨c, rfl, Or.inr (by simpa [entersOf] using hc)⟩
      | yield =>
          rcases ih st o (by simpa [runTask] using ho) with h | ⟨c, rfl, hc | hc⟩
          · exact Or.inl h
          · exact Or.inr ⟨c, rfl, Or.inl hc⟩
          · exact Or.inr ⟨c, rfl, Or.inr (by simpa [entersOf] using hc)⟩

/-- C1: isolation of concurrently dispatched sessions. For every schedule
interleaving session S1's handler (running as `enter c1` followed by its
body) with any concurrent task of session S2, S1's observation sequence is
exactly what it observes running alone (its dynamic scope never observes the
concurrent task's scope), and in particular no `currentContext()` call inside
S1's handler ever observes S2's context `c2`. -/
theorem C1_concurrent_session_isolation
    (sch : List Bool) (c1 c2 : AppContext) (body1 : List Instr)
    (st2 : List AppContext) (is2 : List Instr)
    (hne : c1 ≠ c2) (hbody : c2 ∉ entersOf body1) :
    (interleave sch [] (Instr.enter c1 :: body1) st2 is2).1 =
      runTask [] (Instr.enter c1 :: body1) ∧
    some c2 ∉ (interleave sch [] (Instr.enter c1 :: body1) st2 is2).1 := by
  have hfst :
      (interleave sch [] (Instr.enter c1 :: body1) st2 is2).1 =
        runTask [] (Instr.enter c1 :: body1) := by
    rw [interleave_eq_runTask]
  refine ⟨hfst, ?_⟩
  rw [hfst]
  intro hmem
  have : runTask [] (Instr.enter c1 :: body1) = runTask [c1] body1 := rfl
  rw [this] at hmem
  rcases runTask_mem body1 [c1] (some c2) hmem with h | ⟨c, hc, hmemc | hmemc⟩
  · exact Option.noConfusion h
  · rcases Option.some.inj hc with rfl
    rcases List.mem_singleton.mp hmemc with rfl
    exact hne rfl
  · rcases Option.some.inj hc with rfl
    exact hbody hmemc

/-- S1's handler body: observe, await an external call, observe again,
close the scope. -/
def instrsS1 : List Instr := [Instr.obs, Instr.yield, Instr.obs, Instr.exitScope]

/-- S2's concurrent task: a whole dispatch under S2's context. -/
def instrsS2 : List Instr :=
  [Instr.enter ctxS2, Instr.obs, Instr.yield, Instr.obs, Instr.exitScope]

/-- C1 witness: the isolation theorem at two concrete distinct session
contexts, a concrete interleaving schedule that alternates the two tasks,
and concrete handler bodies. -/
theorem C1_witness :
    ctxS1 ≠ ctxS2 ∧ ctxS2 ∉ entersOf instrsS1 ∧
    ((interleave [true, false, true, false, true, false, true, false, true]
          [] (Instr.enter ctxS1 :: instrsS1) [] instrsS2).1 =
        runTask [] (Instr.enter ctxS1 :: instrsS1) ∧
      some ctxS2 ∉
        (interleave [true, false, true, false, true, false, true, false, true]
          [] (Instr.enter ctxS1 :: instrsS1) [] instrsS2).1) :=
  ⟨by decide, by decide,
   C1_concurrent_session_isolation
     [true, false, true, false, true, false, true, false, true]
     ctxS1 ctxS2 instrsS1 [] instrsS2 (by decide) (by decide)⟩

/-! ## The Routing Transport Adapter

`SessionAwareStreamableTransport.send` (src/evals/evals.ts lines 264-272):

    async send(message: any): Promise<void> {
        const currentContext = this.requestContextStorage.getStore();
        return this.requestContextStorage.run(currentContext, async () => {
            await super.send(message);
        });
    }

The storage is embedded reader-style: a storage-reading computation is a
function of the currently stored context. -/

/-- A computation reading the request-context storage: its result depends on
the context stored at the moment it runs. -/
def ALS (α : Type) : Type := Option AppContext → α

/-- `requestContextStorage.getStore()`: the currently stored context. -/
def getStore : ALS (Option AppContext) := fun ρ => ρ

/-- `requestContextStorage.run(store, body)`: run `body` with the storage
holding exactly `store`, whatever was stored before. -/
def alsRun (store : Option AppContext) (body : ALS α) : ALS α :=
  fun _ => body store

/-- `SessionAwareStreamableTransport.send` (src/evals/evals.ts lines
264-272): read the storage at the moment `send` is invoked, then perform the
physical write (`super.send`) inside `run` of that captured value. -/
def transportSend (physicalWrite : ALS α) : ALS α :=
  fun ρ => alsRun (getStore ρ) physicalWrite ρ

/-- The connection a physical write is routed to, as a function of the
context active during the write: the connection bound to the context's MCP
session, or the empty route when no context is active (spec §4.3: without a
context the write goes to whatever connection happens to be current). -/
def routeOf : Option AppContext → String
  | some c => c.mcpSessionId.getD ""
  | none => ""

/-- The context the physical write observes when `send` runs with stored
context `ρ`. -/
def writeObservedContext : ALS (Option AppContext) := transportSend getStore

/-- C2 counterexample: the adapter of session S1 is constructed during S1's
initialization dispatch, with `ctxS1` active; `send` is then invoked from a
callback running after the originating dispatch's dynamic scope has
returned, i.e. with no stored context. The physical write observes no
context at all — not the context captured at adapter-construction time — so
the deferred message is not routed to the connection that issued the
original request (route "S1"). -/
theorem C2_counterexample :
    writeObservedContext none = none ∧
    writeObservedContext none ≠ some ctxS1 ∧
    routeOf (writeObservedContext none) ≠ routeOf (some ctxS1) := by
  refine ⟨rfl, by decide, by decide⟩

/-- C2 (amended): for every outbound message, `send` captures the context
stored at the moment `send` is invoked — not a context captured at
adapter-construction time — and re-establishes exactly that context for the
duration of the physical write; consequently a `send` invoked while the
originating dispatch's context is stored is delivered to the connection
bound to that dispatch, while a `send` invoked with no stored context
performs the write with no context. -/
theorem C2_send_reestablishes_invocation_context
    (α : Type) (physicalWrite : ALS α) (ρ : Option AppContext)
    (ctx : AppContext) :
    transportSend physicalWrite ρ = physicalWrite ρ ∧
    writeObservedContext ρ = ρ ∧
    routeOf (writeObservedContext (some ctx)) = routeOf (some ctx) :=
  ⟨rfl, rfl, rfl⟩

/-! ## The Session Registry and Session Records

Modelled from the spec (§3, §4.2): the `SessionAwareTransportManager`'s
registry body is not among the repository's source files (src/evals/evals.ts
lines 245-261 show only the creation of the per-session server and
transport), so the registry's data model and operations follow the spec's
words: an atomic check-and-insert map from Session Identifier to Session
Record, a per-record freshness seed (`nextGen`) standing for the fresh
protocol-handling instance and transport adapter each creation wires
together. -/

/-- Modelled from the spec: a Session Record's `state` (§3). -/
inductive SessionState where
  | PENDING_AUTH : SessionState
  | ACTIVE : SessionState
  | EVICTING : SessionState
deriving DecidableEq

/-- Modelled from the spec: a Session Record (§3) — the dedicated
protocol-handling instance and transport adapter are opaque, modelled by
their identities; `destroyed` records that teardown has run. -/
structure SessionRecord where
  id : String
  protocolInstance : Nat
  transport : Nat
  authHandle : Option Nat
  createdAt : Nat
  lastUsedAt : Nat
  state : SessionState
  destroyed : Bool
deriving DecidableEq

/-- Modelled from the spec: `SessionCreationFailure` (§7) — the factory
failed; surfaced to the requesting caller only. -/
structure SessionCreationFailure where
  message : String
deriving DecidableEq

/-- Modelled from the spec: the Session Registry (§4.2) — the map from
Session Identifier to Session Record, plus the freshness seed handed to the
next creation. -/
structure Registry where
  sessions : List (String × SessionRecord)
  nextGen : Nat
deriving DecidableEq

/-- Modelled from the spec: the record the collaborator-supplied creation
factory wires together for identifier `id` at time `now` from freshness seed
`gen` (§6): a freshly constructed protocol instance and transport pair,
never shared, in state `PENDING_AUTH`. -/
def mkRecord (id : String) (now gen : Nat) : SessionRecord :=
  { id := id, protocolInstance := gen, transport := gen, authHandle := none
    createdAt := now, lastUsedAt := now, state := .PENDING_AUTH
    destroyed := false }

/-- The well-behaved creation factory the dispatcher passes to
`getOrCreate`. -/
def stdFactory (id : String) (now : Nat) :
    Nat → Except SessionCreationFailure SessionRecord :=
  fun gen => .ok (mkRecord id now gen)

/-- Modelled from the spec: `getOrCreate(id, factory)` (§4.2) as one atomic
check-and-insert step: return the existing record if present; otherwise run
`factory` on the fresh seed and insert its record, or propagate its failure
inserting nothing. The returned flag records whether `factory()` was
invoked. -/
def getOrCreate (r : Registry) (id : String)
    (factory : Nat → Except SessionCreationFailure SessionRecord) :
    Except SessionCreationFailure SessionRecord × Registry × Bool :=
  match r.sessions.lookup id with
  | some rec => (.ok rec, r, false)
  | none =>
      match factory r.nextGen with
      | .ok rec =>
          (.ok rec,
           { sessions := (id, rec) :: r.sessions, nextGen := r.nextGen + 1 },
           true)
      | .error e => (.error e, r, true)

/-- Modelled from the spec: `touch(id)` (§4.2) — update `lastUsedAt`, a
no-op when `id` is absent. -/
def touch (r : Registry) (id : String) (now : Nat) : Registry :=
  { r with
    sessions := r.sessions.map fun p =>
      if p.1 = id then (p.1, { p.2 with lastUsedAt := now }) else p }

/-- Modelled from the spec: Session Record destruction (§3) — tear down the
protocol instance and the transport; a total function (never an error), and
destroying an already-destroyed record leaves it untouched. -/
def destroyRecord (rec : SessionRecord) : SessionRecord :=
  if rec.destroyed then rec
  else { rec with destroyed := true, state := .EVICTING }

/-- Modelled from the spec: `remove(id)` (§4.2) — remove and tear down the
record if present, returning whether one was removed; `false` and no change
when `id` is absent. -/
def remove (r : Registry) (id : String) : Bool × Registry :=
  match r.sessions.lookup id with
  | some _ =>
      (true, { r with sessions := r.sessions.filter fun p => p.1 != id })
  | none => (false, r)

/-- Modelled from the spec: `list()` (§4.2) — the observability snapshot
`(id, createdAt, lastUsedAt, state)` per registered session. -/
def listSessions (r : Registry) : List (String × Nat × Nat × SessionState) :=
  r.sessions.map fun p => (p.1, p.2.createdAt, p.2.lastUsedAt, p.2.state)

/-- Modelled from the spec: one Lifecycle Sweeper tick (§4.4) — every entry
whose idle time `now - lastUsedAt` exceeds the threshold and whose state is
not `EVICTING` is marked `EVICTING` and removed; all other entries are left
untouched. -/
def sweepTick (r : Registry) (now threshold : Nat) : Registry :=
  { r with
    sessions := r.sessions.filter fun p =>
      !(decide (threshold < now - p.2.lastUsedAt) &&
        decide (p.2.state ≠ SessionState.EVICTING)) }

/-- Modelled from the spec: the registry's invariants (§3) — one record per
identifier, and every registered record was built from a seed older than the
next one (no identity is ever reused). -/
def Wf (r : Registry) : Prop :=
  (r.sessions.map Prod.fst).Nodup ∧
  ∀ p ∈ r.sessions, p.2.protocolInstance < r.nextGen

instance (r : Registry) : Decidable (Wf r) := by
  unfold Wf; infer_instance

/-- N calls of `getOrCreate(id, factory)`: since each call is one atomic
check-and-insert step, any concurrent execution of N such calls is their
execution one after the other. Returns each call's result, the final
registry and how many times `factory()` was invoked. -/
def getOrCreateN : Nat → Registry → String →
    (Nat → Except SessionCreationFailure SessionRecord) →
    List (Except SessionCreationFailure SessionRecord) × Registry × Nat
  | 0, r, _, _ => ([], r, 0)
  | n + 1, r, id, f =>
      ((getOrCreate r id f).1 ::
        (getOrCreateN n (getOrCreate r id f).2.1 id f).1,
       (getOrCreateN n (getOrCreate r id f).2.1 id f).2.1,
       (if (getOrCreate r id f).2.2 then 1 else 0) +
        (getOrCreateN n (getOrCreate r id f).2.1 id f).2.2)

/-! ### Registry lemmas -/

theorem lookup_cons_self (id : String) (rec : SessionRecord)
    (l : List (String × SessionRecord)) :
    ((id, rec) :: l).lookup id = some rec := by
  simp [List.lookup]

theorem lookup_some_mem :
    ∀ (l : List (String × SessionRecord)) (id : String) (rec : SessionRecord),
      l.lookup id = some rec → (id, rec) ∈ l := by
  intro l
  induction l with
  | nil => intro id rec h; simp [List.lookup] at h
  | cons p l ih =>
      intro id rec h
      rw [List.lookup] at h
      by_cases hk : id = p.1
      · subst hk
        simp only [beq_self_eq_true] at h
        rcases Option.some.inj h with rfl
        exact List.mem_cons_self _ _
      · have : (id == p.1) = false := beq_eq_false_iff_ne.mpr hk
        rw [this] at h
        exact List.mem_cons_of_mem _ (ih id rec h)

theorem lookup_none_not_mem :
    ∀ (l : List (String × SessionRecord)) (id : String),
      l.lookup id = none → ∀ rec, (id, rec) ∉ l := by
  intro l
  induction l with
  | nil => intro id _ rec h; simp at h
  | cons p l ih =>
      intro id h rec hmem
      rw [List.lookup] at h
      rcases List.mem_cons.mp hmem with rfl | hmem
      · simp at h
      · by_cases hk : id = p.1
        · subst hk; simp at h
        · have : (id == p.1) = false := beq_eq_false_iff_ne.mpr hk
          rw [this] at h
          exact ih id h rec hmem

theorem countP_key_of_lookup_none :
    ∀ (l : List (String × SessionRecord)) (id : String),
      l.lookup id = none →
      l.countP (fun p => decide (p.1 = id)) = 0 := by
  intro l
  induction l with
  | nil => intro id _; rfl
  | cons p l ih =>
      intro id h
      rw [List.lookup] at h
      by_cases hk : id = p.1
      · subst hk; simp at h
      · have hb : (id == p.1) = false := beq_eq_false_iff_ne.mpr hk
        rw [hb] at h
        rw [List.countP_cons]
        simp [ih id h, Ne.symm hk]

theorem lookup_filter_ne :
    ∀ (l : List (String × SessionRecord)) (id : String),
      (l.filter fun p => p.1 != id).lookup id = none := by
  intro l
  induction l with
  | nil => intro id; rfl
  | cons p l ih =>
      intro id
      by_cases hk : p.1 = id
      · simp [List.filter, hk, ih id]
      · have hb : (p.1 != id) = true := by
          simp [bne_iff_ne, hk]
        have hb2 : (id == p.1) = false := beq_eq_false_iff_ne.mpr (Ne.symm hk)
        simp [List.filter, hb, List.lookup, hb2, ih id]

theorem key_unique :
    ∀ (l : List (String × SessionRecord)) (id : String)
      (x y : SessionRecord),
      (l.map Prod.fst).Nodup → (id, x) ∈ l → (id, y) ∈ l → x = y := by
  intro l
  induction l with
  | nil => intro id x y _ hx _; simp at hx
  | cons p l ih =>
      intro id x y hnd hx hy
      rw [List.map_cons, List.nodup_cons] at hnd
      rcases List.mem_cons.mp hx with hx' | hx
      · rcases List.mem_cons.mp hy with hy' | hy
        · exact (congrArg Prod.snd (hy'.trans hx'.symm)).symm
        · exfalso
          apply hnd.1
          have hmem : id ∈ l.map Prod.fst := List.mem_map_of_mem Prod.fst hy
          have hp1 : p.1 = id := by rw [← hx']
          rw [hp1]
          exact hmem
      · rcases List.mem_cons.mp hy with hy' | hy
        · exfalso
          apply hnd.1
          have hmem : id ∈ l.map Prod.fst := List.mem_map_of_mem Prod.fst hx
          have hp1 : p.1 = id := by rw [← hy']
          rw [hp1]
          exact hmem
        · exact ih id x y hnd.2 hx hy

/-- After a record for `id` is registered, every further `getOrCreate` for
`id` returns it without invoking the factory and without touching the
registry. -/
theorem getOrCreateN_of_lookup_some :
    ∀ (n : Nat) (r : Registry) (id : String)
      (f : Nat → Except SessionCreationFailure SessionRecord)
      (rec : SessionRecord),
      r.sessions.lookup id = some rec →
      getOrCreateN n r id f = (List.replicate n (.ok rec), r, 0) := by
  intro n
  induction n with
  | zero => intro r id f rec _; rfl
  | succ n ih =>
      intro r id f rec h
      have hstep : getOrCreate r id f = (.ok rec, r, false) := by
        rw [getOrCreate, h]
      rw [getOrCreateN, hstep, ih r id f rec h]
      rfl

/-- C3: single creation. When `id` is previously unseen, any number
`N = n + 1` of concurrent `getOrCreate(id, factory)` calls — each call being
one atomic check-and-insert step, so a concurrent execution is their
execution in sequence — invokes the factory exactly once, returns the same
freshly built Session Record to every caller, and leaves exactly one record
for `id` in the registry; one record per identifier is preserved. -/
theorem C3_single_creation (n : Nat) (r : Registry) (id : String) (now : Nat)
    (hid : r.sessions.lookup id = none)
    (hnd : (r.sessions.map Prod.fst).Nodup) :
    (getOrCreateN (n + 1) r id (stdFactory id now)).2.2 = 1 ∧
    (∀ res ∈ (getOrCreateN (n + 1) r id (stdFactory id now)).1,
      res = .ok (mkRecord id now r.nextGen)) ∧
    ((getOrCreateN (n + 1) r id (stdFactory id now)).2.1).sessions.countP
        (fun p => decide (p.1 = id)) = 1 ∧
    (((getOrCreateN (n + 1) r id (stdFactory id now)).2.1).sessions.map
        Prod.fst).Nodup := by
  have hstep :
      getOrCreate r id (stdFactory id now) =
        (.ok (mkRecord id now r.nextGen),
         { sessions := (id, mkRecord id now r.nextGen) :: r.sessions,
           nextGen := r.nextGen + 1 },
         true) := by
    rw [getOrCreate, hid]; rfl
  have hrest :
      getOrCreateN n
          { sessions := (id, mkRecord id now r.nextGen) :: r.sessions,
            nextGen := r.nextGen + 1 } id (stdFactory id now) =
        (List.replicate n (.ok (mkRecord id now r.nextGen)),
         { sessions := (id, mkRecord id now r.nextGen) :: r.sessions,
           nextGen := r.nextGen + 1 },
         0) :=
    getOrCreateN_of_lookup_some n _ id _ _ (lookup_cons_self id _ r.sessions)
  have hout :
      getOrCreateN (n + 1) r id (stdFactory id now) =
        (.ok (mkRecord id now r.nextGen) ::
          List.replicate n (.ok (mkRecord id now r.nextGen)),
         { sessions := (id, mkRecord id now r.nextGen) :: r.sessions,
           nextGen := r.nextGen + 1 },
         1) := by
    rw [getOrCreateN, hstep]
    simp only [hrest]
    simp
  rw [hout]
  refine ⟨rfl, ?_, ?_, ?_⟩
  · intro res hres
    rcases List.mem_cons.mp hres with rfl | hres
    · rfl
    · exact List.eq_of_mem_replicate hres
  · rw [List.countP_cons]
    simp [countP_key_of_lookup_none r.sessions id hid]
  · rw [List.map_cons, List.nodup_cons]
    refine ⟨?_, hnd⟩
    intro hmem
    rcases List.mem_map.mp hmem with ⟨p, hp, hfst⟩
    exact lookup_none_not_mem r.sessions id hid p.2 (by
      have : p = (id, p.2) := by
        cases p; simp_all
      rw [← this]; exact hp)

/-- A concrete registry already holding one session, "X" unseen. -/
def regOne : Registry :=
  { sessions := [("A", mkRecord "A" 5 0)], nextGen := 1 }

/-- C3 witness: five concurrent `getOrCreate("X", factory)` calls against a
registry that has never seen "X". -/
theorem C3_witness :
    regOne.sessions.lookup "X" = none ∧
    (regOne.sessions.map Prod.fst).Nodup ∧
    ((getOrCreateN 5 regOne "X" (stdFactory "X" 7)).2.2 = 1 ∧
      (∀ res ∈ (getOrCreateN 5 regOne "X" (stdFactory "X" 7)).1,
        res = .ok (mkRecord "X" 7 regOne.nextGen)) ∧
      ((getOrCreateN 5 regOne "X" (stdFactory "X" 7)).2.1).sessions.countP
          (fun p => decide (p.1 = "X")) = 1 ∧
      (((getOrCreateN 5 regOne "X" (stdFactory "X" 7)).2.1).sessions.map
          Prod.fst).Nodup) :=
  ⟨by decide, by decide,
   C3_single_creation 4 regOne "X" 7 (by decide) (by decide)⟩

/-- C5: failing factory. When `id` is unseen and the factory fails with `e`,
every one of the N concurrent `getOrCreate(id, factory)` calls receives that
same `SessionCreationFailure`, the registry is left exactly as it was, and
it contains no record for `id` afterwards. -/
theorem C5_failing_factory (n : Nat) (r : Registry) (id : String)
    (e : SessionCreationFailure)
    (hid : r.sessions.lookup id = none) :
    (∀ res ∈ (getOrCreateN n r id fun _ => .error e).1, res = .error e) ∧
    (getOrCreateN n r id fun _ => .error e).2.1 = r ∧
    ((getOrCreateN n r id fun _ => .error e).2.1).sessions.lookup id =
      none := by
  have hstep : getOrCreate r id (fun _ => .error e) = (.error e, r, true) := by
    rw [getOrCreate, hid]
  have hmain :
      ∀ m, (∀ res ∈ (getOrCreateN m r id fun _ => .error e).1,
              res = .error e) ∧
        (getOrCreateN m r id fun _ => .error e).2.1 = r := by
    intro m
    induction m with
    | zero => exact ⟨by intro res h; simp [getOrCreateN] at h, rfl⟩
    | succ m ih =>
        constructor
        · intro res hres
          rw [getOrCreateN, hstep] at hres
          rcases List.mem_cons.mp hres with rfl | hres
          · rfl
          · exact ih.1 res hres
        · rw [getOrCreateN, hstep]
          exact ih.2
  refine ⟨(hmain n).1, (hmain n).2, ?_⟩
  rw [(hmain n).2]
  exact hid

/-- C5 witness: `getOrCreate("X", failingFactory)` called 5 times
concurrently against a registry with no record for "X": all five callers
receive the same failure and no record for "X" is inserted. -/
theorem C5_witness :
    regOne.sessions.lookup "X" = none ∧
    ((∀ res ∈ (getOrCreateN 5 regOne "X" fun _ =>
          .error { message := "resource exhausted" }).1,
        res = .error { message := "resource exhausted" }) ∧
      (getOrCreateN 5 regOne "X" fun _ =>
          .error { message := "resource exhausted" }).2.1 = regOne ∧
      ((getOrCreateN 5 regOne "X" fun _ =>
          .error { message := "resource exhausted" }).2.1).sessions.lookup
          "X" = none) :=
  ⟨by decide,
   C5_failing_factory 5 regOne "X" { message := "resource exhausted" }
     (by decide)⟩

/-- C7: `remove(id)` returns `true` exactly when a record for `id` is
present and `false`, without error, when it is absent (`remove` is a total
function); and `remove(id)` followed immediately by `getOrCreate(id,
factory)` constructs a fresh record through the factory — under the
registry's freshness invariant the new record differs from the torn-down
one, whose state is never resurrected. -/
theorem C7_remove_then_fresh_create (r : Registry) (id : String)
    (rec : SessionRecord) (now : Nat)
    (hWf : Wf r) (hlk : r.sessions.lookup id = some rec) :
    (remove r id).1 = true ∧
    (∀ s : Registry, s.sessions.lookup id = none → remove s id = (false, s)) ∧
    ((remove r id).2).sessions.lookup id = none ∧
    (getOrCreate (remove r id).2 id (stdFactory id now)).1 =
      .ok (mkRecord id now r.nextGen) ∧
    mkRecord id now r.nextGen ≠ rec := by
  have hrm : remove r id =
      (true, { r with sessions := r.sessions.filter fun p => p.1 != id }) := by
    rw [remove, hlk]
  refine ⟨by rw [hrm], ?_, ?_, ?_, ?_⟩
  · intro s hs
    rw [remove, hs]
  · rw [hrm]
    exact lookup_filter_ne r.sessions id
  · have hlk2 : ((remove r id).2).sessions.lookup id = none := by
      rw [hrm]
      exact lookup_filter_ne r.sessions id
    rw [getOrCreate, hlk2]
    have hgen : ((remove r id).2).nextGen = r.nextGen := by rw [hrm]
    rw [hgen]
    rfl
  · intro heq
    have hlt : rec.protocolInstance < r.nextGen :=
      hWf.2 (id, rec) (lookup_some_mem r.sessions id rec hlk)
    have hproj : r.nextGen = rec.protocolInstance := by
      simpa [mkRecord] using congrArg SessionRecord.protocolInstance heq
    omega

/-- C7 witness: removing "A" from a registry holding it, then immediately
re-creating "A", yields a fresh record distinct from the removed one. -/
theorem C7_witness :
    Wf regOne ∧ regOne.sessions.lookup "A" = some (mkRecord "A" 5 0) ∧
    ((remove regOne "A").1 = true ∧
      (∀ s : Registry, s.sessions.lookup "A" = none →
        remove s "A" = (false, s)) ∧
      ((remove regOne "A").2).sessions.lookup "A" = none ∧
      (getOrCreate (remove regOne "A").2 "A" (stdFactory "A" 9)).1 =
        .ok (mkRecord "A" 9 regOne.nextGen) ∧
      mkRecord "A" 9 regOne.nextGen ≠ mkRecord "A" 5 0) :=
  ⟨by decide, by decide,
   C7_remove_then_fresh_create regOne "A" (mkRecord "A" 5 0) 9 (by decide)
     (by decide)⟩

/-- C8: one sweeper tick. Every registered session whose idle time
`now - lastUsedAt` exceeds the threshold and whose state is not `EVICTING`
is absent from `list()` after the tick; every session whose idle time is
within the threshold survives the tick with its snapshot unchanged in
`list()`. -/
theorem C8_sweep_tick (r : Registry) (now threshold : Nat) (id : String)
    (rec : SessionRecord)
    (hnd : (r.sessions.map Prod.fst).Nodup)
    (hmem : (id, rec) ∈ r.sessions) :
    (threshold < now - rec.lastUsedAt → rec.state ≠ .EVICTING →
      ∀ e ∈ listSessions (sweepTick r now threshold), e.1 ≠ id) ∧
    (now - rec.lastUsedAt ≤ threshold →
      (id, rec.createdAt, rec.lastUsedAt, rec.state) ∈
        listSessions (sweepTick r now threshold)) := by
  constructor
  · intro hidle hst e he hfst
    rcases List.mem_map.mp he with ⟨p, hp, hpe⟩
    have hp1 : p.1 = id := by rw [← hfst, ← hpe]
    have hpmem : p ∈ r.sessions := List.mem_of_mem_filter hp
    have hkeep := List.of_mem_filter hp
    have hpr : p = (id, rec) := by
      have : p.2 = rec := by
        apply key_unique r.sessions id p.2 rec hnd
        · rw [← hp1]
          exact hpmem
        · exact hmem
      calc p = (p.1, p.2) := rfl
        _ = (id, rec) := by rw [hp1, this]
    rw [hpr] at hkeep
    simp only [Bool.not_eq_true', Bool.and_eq_false_iff, decide_eq_false_iff_not,
      not_lt, ne_eq, Decidable.not_not] at hkeep
    rcases hkeep with h | h
    · omega
    · exact hst h
  · intro hidle
    have hkeep : (!(decide (threshold < now - rec.lastUsedAt) &&
        decide (rec.state ≠ SessionState.EVICTING))) = true := by
      have : decide (threshold < now - rec.lastUsedAt) = false := by
        simp [decide_eq_false_iff_not]
        omega
      rw [this]
      rfl
    have : (id, rec) ∈ (sweepTick r now threshold).sessions :=
      List.mem_filter.mpr ⟨hmem, hkeep⟩
    exact List.mem_map.mpr ⟨(id, rec), this, rfl⟩

/-- Witness record of an active session "A" last touched at 7000. -/
def recA : SessionRecord :=
  { mkRecord "A" 7000 0 with state := .ACTIVE }

/-- Witness record of an active session "B" last touched at 100. -/
def recB : SessionRecord :=
  { mkRecord "B" 100 1 with state := .ACTIVE }

/-- A registry for the sweeper witness: session "A" touched recently,
session "B" idle past any one-hour threshold. -/
def regSweep : Registry :=
  { sessions := [("A", recA), ("B", recB)], nextGen := 2 }

/-- C8 witness: at `now = 7200` with a `3600`-tick threshold, idle session
"B" (last used at 100) is gone from `list()` after the tick while fresh
session "A" (last used at 7000) survives with its snapshot intact. -/
theorem C8_witness :
    (regSweep.sessions.map Prod.fst).Nodup ∧
    ("B", recB) ∈ regSweep.sessions ∧
    (3600 < 7200 - recB.lastUsedAt) ∧
    recB.state ≠ SessionState.EVICTING ∧
    (∀ e ∈ listSessions (sweepTick regSweep 7200 3600), e.1 ≠ "B") ∧
    ("A", recA.createdAt, recA.lastUsedAt, recA.state) ∈
      listSessions (sweepTick regSweep 7200 3600) := by
  refine ⟨by decide, by decide, by decide, by decide, ?_, ?_⟩
  · exact (C8_sweep_tick regSweep 7200 3600 "B" recB
      (by decide) (by decide)).1 (by decide) (by decide)
  · exact (C8_sweep_tick regSweep 7200 3600 "A" recA
      (by decide) (by decide)).2 (by decide)

/-- C9: Session Record destruction is idempotent — destroying an
already-destroyed record is a no-op, and any positive number of repeated
destructions equals a single one; destruction is a total function, so no
repetition raises an error. -/
theorem C9_destroy_idempotent (rec : SessionRecord) (n : Nat) :
    destroyRecord (destroyRecord rec) = destroyRecord rec ∧
    Nat.iterate destroyRecord (n + 1) rec = destroyRecord rec := by
  have hd : ∀ s : SessionRecord, (destroyRecord s).destroyed = true := by
    intro s
    by_cases h : s.destroyed
    · rw [destroyRecord, if_pos h]; exact h
    · rw [destroyRecord, if_neg h]
  have honce : ∀ s : SessionRecord,
      destroyRecord (destroyRecord s) = destroyRecord s := by
    intro s
    have h := hd s
    rw [destroyRecord]
    simp [h]
  refine ⟨honce rec, ?_⟩
  induction n with
  | zero => rfl
  | succ n ih =>
      rw [Function.iterate_succ_apply']
      rw [ih]
      exact honce rec

/-! ## The Request Dispatcher boundary

Modelled from the spec (§4.5, §7): the dispatcher's `try/catch` around the
protocol-handling instance is not among the repository's source files; the
boundary follows the spec's words. A raising handler is a handler returning
`Except.error`; catching is matching on it. -/

/-- The structured response the dispatcher sends back: an error flag
(`HandlerFailure` converted to a structured error payload) and the payload
itself. -/
structure StructuredResponse where
  isError : Bool
  payload : String
deriving DecidableEq

/-- An outbound message as delivered by a Routing Transport Adapter: the
connection of the session the adapter belongs to, and the response. -/
structure OutboundMessage where
  connection : String
  response : StructuredResponse
deriving DecidableEq

/-- Modelled from the spec: the structured error payload a caught
`HandlerFailure` is converted to (§7). -/
def mkErrorResponse (e : String) : StructuredResponse :=
  { isError := true, payload := e }

/-- Modelled from the spec: one dispatch (§4.5) — forward the message to the
session's protocol-handling instance; if it raises, catch here, convert to a
structured error response, and send it through this session's own adapter.
The result type is a plain `OutboundMessage`: no exception escapes the
boundary, so a handler failure cannot terminate the shared process. -/
def dispatchMessage (connection : String)
    (handle : String → Except String String) (msg : String) :
    OutboundMessage :=
  match handle msg with
  | .ok resp =>
      { connection := connection
        response := { isError := false, payload := resp } }
  | .error e => { connection := connection, response := mkErrorResponse e }

/-- Two sessions' messages dispatched concurrently: each session owns its
protocol instance and adapter (spec §5), so the two dispatches share no
state and their concurrent execution is the pair of their executions. -/
def dispatchPair (connA connB : String)
    (hA hB : String → Except String String) (mA mB : String) :
    OutboundMessage × OutboundMessage :=
  (dispatchMessage connA hA mA, dispatchMessage connB hB mB)

/-- C4: a `HandlerFailure` while processing session A's message is caught at
the dispatcher boundary, converted to a structured error response, and sent
through A's own adapter rather than propagating (the dispatcher's result is
an ordinary value — the shared process does not terminate); session B's
concurrent message processing succeeds unaffected, its ordinary response
delivered on B's own connection. -/
theorem C4_handler_failure_contained (connA connB : String)
    (hA hB : String → Except String String) (mA mB : String)
    (e respB : String)
    (hfail : hA mA = .error e) (hok : hB mB = .ok respB) :
    dispatchPair connA connB hA hB mA mB =
      ({ connection := connA, response := mkErrorResponse e },
       { connection := connB,
         response := { isError := false, payload := respB } }) := by
  rw [dispatchPair, dispatchMessage, hfail, dispatchMessage, hok]

/-- C4 witness: session A's handler raises on its message while session B's
handler answers normally; A's connection receives the structured error, B's
connection its ordinary response. -/
theorem C4_witness :
    (fun m => if m = "mA" then (.error "boom" : Except String String)
              else .ok "ok") "mA" = .error "boom" ∧
    (fun m => if m = "mB" then (.ok "pong" : Except String String)
              else .error "x") "mB" = .ok "pong" ∧
    dispatchPair "connA" "connB"
        (fun m => if m = "mA" then .error "boom" else .ok "ok")
        (fun m => if m = "mB" then .ok "pong" else .error "x") "mA" "mB" =
      ({ connection := "connA", response := mkErrorResponse "boom" },
       { connection := "connB",
         response := { isError := false, payload := "pong" } }) :=
  ⟨by simp, by simp,
   C4_handler_failure_contained "connA" "connB"
     (fun m => if m = "mA" then .error "boom" else .ok "ok")
     (fun m => if m = "mB" then .ok "pong" else .error "x")
     "mA" "mB" "boom" "pong" (by simp) (by simp)⟩

end GmailMCP
